import Mathlib

/-!
# Verification of the swsurface software-rendering swapchain

Shallow embedding of the repository's core data model and operations:

* `src/align.rs` — the `Align` stride aligner (`Align::new`, `Align::align_up`),
  with Rust `usize` modelled as `Nat` values below `USIZE = 2 ^ 64` and
  overflow made explicit.
* `src/unix/wayland.rs` — the Wayland `SurfaceImpl`: per-image slot state
  (`mem` initialisation, `RefCell` lock borrows, the `presenting` flag),
  `update_surface`, `poll_next_image`, `lock_image`, `present_image` and the
  `on_release` buffer-release handler, plus the `enable_ready_cb` latch.
* `src/unix/x11.rs`, `src/cgl.rs`, `src/windows.rs` — the single-image
  backends (`update_surface`, `poll_next_image` / `wait_next_image`,
  `lock_image`, `present_image`, `num_images`).
* a model of the `SharedConnection` teardown protocol of spec §4.5, which has
  no corresponding code under `src/`.

Rust panics (`assert!`, `expect`, `RefCell` borrow failures, checked-arithmetic
`unwrap`s) are modelled as `Except PanicMsg` errors; all mutations in the
source happen only after the corresponding checks succeed, which the
embeddings mirror by construction (check first, build the new state last).
-/

namespace Swsurface

/-! ## Basic data model (`src/lib.rs`, `src/align.rs`) -/

/-- The number of values of Rust's 64-bit `usize`; a `usize` value is a `Nat`
below `USIZE`, and every checked arithmetic operation compares against it. -/
def USIZE : Nat := 2 ^ 64

/-- `i32::max_value()`, the bound used by the `extent[i] <= i32::max_value()`
assertions and the `try_into::<i32>()` conversions in `update_surface`. -/
def I32MAX : Nat := 2 ^ 31 - 1

/-- `Format` from `src/lib.rs`: the two supported 32-bit pixel formats. -/
inductive Format where
  | argb8888
  | xrgb8888
deriving DecidableEq, Repr

/-- `ImageInfo` from `src/lib.rs`: extent (`[u32; 2]`), row stride in bytes
(`usize`) and pixel format. -/
structure ImageInfo where
  extent : Nat × Nat
  stride : Nat
  format : Format
deriving DecidableEq, Repr

/-- `ImageInfo::default()` from `src/lib.rs`. -/
def ImageInfo.default : ImageInfo :=
  { extent := (0, 0), stride := 0, format := Format.argb8888 }

/-- `Config` from `src/lib.rs` (the fields the verified operations read:
`image_count` and the scanline alignment passed to `Align::new`; the
`vsync`/opacity flags only configure external presentation collaborators). -/
structure Config where
  image_count : Nat
  scanline_align : Nat
deriving DecidableEq, Repr

/-- `Config::default()` from `src/lib.rs`: `image_count = 2`. The source's
default has no explicit scanline alignment field; `1` (no padding) is the
neutral value accepted by `Align::new`. -/
def Config.default : Config :=
  { image_count := 2, scanline_align := 1 }

/-- `usize::is_power_of_two` restricted to the 64-bit domain: for any
`x < USIZE` this agrees with Rust's `is_power_of_two` (exactly one bit set),
because every 64-bit power of two is `2 ^ k` for some `k < 64`. -/
def isPowerOfTwo (x : Nat) : Bool :=
  (List.range 64).any (fun k => x == 2 ^ k)

/-- `Align` from `src/align.rs`: the constructor stores `x - 1`
(`Self(x - 1)`), i.e. the low-bit mask of the alignment. -/
structure Align where
  mask : Nat
deriving DecidableEq, Repr

/-- `Align::new` from `src/align.rs`: succeeds exactly for a nonzero power of
two, storing `x - 1`. `Option` models `Result<_, AlignErr>`. -/
def Align.new (x : Nat) : Option Align :=
  if 0 < x && isPowerOfTwo x then some ⟨x - 1⟩ else none

/-- `Align::align_up` from `src/align.rs`:
`x.checked_add(self.0).map(|x| x & !self.0)`. On 64-bit `usize`,
`checked_add` fails when the sum reaches `USIZE`, and `!self.0` is the
complement `USIZE - 1 - self.0`. -/
def Align.align_up (a : Align) (x : Nat) : Option Nat :=
  if x + a.mask < USIZE then some ((x + a.mask) &&& (USIZE - 1 - a.mask)) else none

/-- The `Align` produced by `Align::new(64)`, the concrete scanline alignment
used in the claims' scenarios. -/
def align64 : Align := ⟨63⟩

/-- Panic sites of the embedded operations. Each constructor corresponds to an
`assert!`/`expect`/`unwrap`/`RefCell` borrow failure in the source. -/
inductive PanicMsg where
  /-- `assert_ne!(extent[i], 0)` -/
  | extentZero
  /-- `assert!(extent[i] <= i32::max_value() as u32)` -/
  | extentTooLarge
  /-- `image.mem.try_borrow_mut().expect("some images are locked")` in
  the Wayland `update_surface` -/
  | someImagesAreLocked
  /-- `expect("overflow")` on checked multiplication / `align_up`, and the
  `try_into::<i32>().unwrap()` on the stride -/
  | overflow
  /-- `expect("surface is not initialized")` -/
  | surfaceNotInitialized
  /-- `assert_eq!(image.presenting.get(), false, "the image is currently in
  use by the compositor")` -/
  | imageInUseByCompositor
  /-- `try_borrow`/`try_borrow_mut`/`borrow_mut` failure on an image locked by
  an outstanding `lock_image` view -/
  | imageLocked
  /-- slot index out of bounds (`self.state.images[i]` / `assert_eq!(i, 0)`) -/
  | indexOutOfBounds
deriving DecidableEq, Repr

/-- `Iterator::position` on a list: index of the first element satisfying the
predicate. -/
def position (p : α → Bool) : List α → Option Nat
  | [] => none
  | a :: as => if p a then some 0 else (position p as).map (· + 1)

/-! ## The Wayland backend (`src/unix/wayland.rs`) -/

/-- One `Image` slot of the Wayland `SurfaceImpl`:
* `memInit` — `mem` is `Some(..)`, i.e. the `MemPool` backing storage exists
  (false before the first `update_surface`);
* `hasBuffer` — the inner `Option<WlBuffer>` is `Some(..)`;
* `locked` — the `mem` `RefCell` is mutably borrowed by an outstanding
  `lock_image` view;
* `presenting` — the `presenting: Cell<bool>` flag (attached via
  `wl_surface::attach`, `release` event not yet received). -/
structure WlImage where
  memInit : Bool
  hasBuffer : Bool
  locked : Bool
  presenting : Bool
deriving DecidableEq, Repr

/-- The `State` of a Wayland `SurfaceImpl`: the slot list, the
`enable_ready_cb` latch and the current `ImageInfo`. The `scanline_align`
field is passed separately as an `Align` parameter. -/
structure WlState where
  images : List WlImage
  enableReadyCb : Bool
  imageInfo : ImageInfo
deriving DecidableEq, Repr

/-- `SurfaceImpl::new` (Wayland): `config.image_count` slots, each with
`mem = None` and `presenting = false`; ready-callback latch off; default
`ImageInfo`. -/
def wlNew (imageCount : Nat) : WlState :=
  { images := List.replicate imageCount
      { memInit := false, hasBuffer := false, locked := false, presenting := false },
    enableReadyCb := false,
    imageInfo := ImageInfo.default }

/-- `SurfaceImpl::supported_formats` (Wayland): `[Format::Argb8888]`. -/
def wlSupportedFormats : List Format := [Format.argb8888]

/-- `SurfaceImpl::num_images` (Wayland): `self.state.images.len()`. -/
def wlNumImages (s : WlState) : Nat := s.images.length

/-- `SurfaceImpl::image_info` (Wayland): `self.state.image_info.get()`. -/
def wlImageInfo (s : WlState) : ImageInfo := s.imageInfo

/-- `SurfaceImpl::update_surface` (Wayland), in source order: the two
`extent` nonzero assertions; the collective `try_borrow_mut` over every slot
(fails if any image is locked); the `i32` range assertions; the checked
stride computation `extent[0] * 4` rounded up by `scanline_align`; the `i32`
stride bound; the checked size `stride * extent[1]`; then (and only then) the
mutations: every slot's `MemPool` is created/resized (`mem` becomes `Some`)
and `image_info` is replaced. No format validation is performed. -/
def wlUpdateSurface (al : Align) (s : WlState) (extent : Nat × Nat) (format : Format) :
    Except PanicMsg WlState :=
  if extent.1 = 0 ∨ extent.2 = 0 then .error .extentZero
  else if s.images.any (fun im => im.locked) then .error .someImagesAreLocked
  else if ¬ (extent.1 ≤ I32MAX ∧ extent.2 ≤ I32MAX) then .error .extentTooLarge
  else if USIZE ≤ extent.1 * 4 then .error .overflow
  else
    match al.align_up (extent.1 * 4) with
    | none => .error .overflow
    | some stride =>
      if ¬ stride ≤ I32MAX then .error .overflow
      else if USIZE ≤ stride * extent.2 then .error .overflow
      else .ok { s with
        images := s.images.map (fun im => { im with memInit := true }),
        imageInfo := { extent := extent, stride := stride, format := format } }

/-- `SurfaceImpl::poll_next_image` (Wayland): index of the first slot with
`presenting == false`; if none, set the `enable_ready_cb` latch. Returns the
result together with the (possibly updated) state. -/
def wlPollNextImage (s : WlState) : Option Nat × WlState :=
  match position (fun im => im.presenting == false) s.images with
  | some i => (some i, s)
  | none => (none, { s with enableReadyCb := true })

/-- `SurfaceImpl::lock_image` (Wayland), in source order: slot indexing;
the `presenting == false` assertion; `mem.borrow_mut()` (fails if already
locked); the `Some` check on `mem` (fails before the first `update_surface`).
On success the slot holds an outstanding mutable view (`locked := true`). -/
def wlLockImage (s : WlState) (i : Nat) : Except PanicMsg WlState :=
  match s.images[i]? with
  | none => .error .indexOutOfBounds
  | some im =>
    if im.presenting then .error .imageInUseByCompositor
    else if im.locked then .error .imageLocked
    else if ¬ im.memInit then .error .surfaceNotInitialized
    else .ok { s with images := s.images.set i { im with locked := true } }

/-- Dropping the view returned by `lock_image` releases the `RefCell` borrow
of slot `i`. -/
def wlUnlockImage (s : WlState) (i : Nat) : WlState :=
  match s.images[i]? with
  | none => s
  | some im => { s with images := s.images.set i { im with locked := false } }

/-- `SurfaceImpl::present_image` (Wayland), in source order: slot indexing;
the `presenting == false` assertion; `mem.try_borrow_mut()` (fails if
locked); the `Some` check on `mem`; then a `wl_buffer` is created and
attached and `presenting` is set. -/
def wlPresentImage (s : WlState) (i : Nat) : Except PanicMsg WlState :=
  match s.images[i]? with
  | none => .error .indexOutOfBounds
  | some im =>
    if im.presenting then .error .imageInUseByCompositor
    else if im.locked then .error .imageLocked
    else if ¬ im.memInit then .error .surfaceNotInitialized
    else .ok { s with
      images := s.images.set i { im with hasBuffer := true, presenting := true } }

/-- The `on_release` closure installed on each slot's `MemPool` (Wayland):
clears `presenting` for the released slot, then, if the `enable_ready_cb`
latch is set, clears the latch (`Cell::replace(false)`) and invokes the ready
callback. The returned `Bool` records whether the callback was invoked. -/
def wlOnRelease (s : WlState) (i : Nat) : WlState × Bool :=
  let s1 :=
    match s.images[i]? with
    | none => s
    | some im => { s with images := s.images.set i { im with presenting := false } }
  if s1.enableReadyCb then ({ s1 with enableReadyCb := false }, true) else (s1, false)

/-- The events that can act on a Wayland surface: the application-facing
operations, view drops, and the compositor's buffer-release completion. -/
inductive WlEvent where
  | update : Nat × Nat → Format → WlEvent
  | poll : WlEvent
  | lock : Nat → WlEvent
  | unlock : Nat → WlEvent
  | present : Nat → WlEvent
  | release : Nat → WlEvent
deriving DecidableEq, Repr

/-- One event step on a Wayland surface. Panicking calls produce no successor
state (`none`). An `unlock` is only possible for a slot holding an
outstanding view; a `release` event can only arrive for a slot whose buffer
is attached (`presenting`). -/
def wlExec (al : Align) (ev : WlEvent) (s : WlState) : Option WlState :=
  match ev with
  | .update e f => (wlUpdateSurface al s e f).toOption
  | .poll => some (wlPollNextImage s).2
  | .lock i => (wlLockImage s i).toOption
  | .unlock i =>
    match s.images[i]? with
    | some im => if im.locked then some (wlUnlockImage s i) else none
    | none => none
  | .present i => (wlPresentImage s i).toOption
  | .release i =>
    match s.images[i]? with
    | some im => if im.presenting then some (wlOnRelease s i).1 else none
    | none => none

/-- States of a Wayland surface reachable from construction with `n` slots by
any sequence of successful events. -/
inductive WlReachable (al : Align) (n : Nat) : WlState → Prop
  | init : WlReachable al n (wlNew n)
  | step {s s' : WlState} (ev : WlEvent) :
      WlReachable al n s → wlExec al ev s = some s' → WlReachable al n s'

/-- Run a list of events in order; `none` as soon as one panics. -/
def wlRun (al : Align) : WlState → List WlEvent → Option WlState
  | s, [] => some s
  | s, ev :: evs =>
    match wlExec al ev s with
    | some s' => wlRun al s' evs
    | none => none

/-- Deliver a list of buffer-release events to the `on_release` handler,
counting how many of them invoked the ready callback. -/
def wlRunReleases : WlState → List Nat → WlState × Nat
  | s, [] => (s, 0)
  | s, i :: is =>
    ((wlRunReleases (wlOnRelease s i).1 is).1,
      (if (wlOnRelease s i).2 then 1 else 0) + (wlRunReleases (wlOnRelease s i).1 is).2)

/-- Events that neither present a slot nor deliver a buffer-release
completion: the side of the slot-state machine that cannot move a slot into
or out of the `presenting` state. -/
def nonCompleting : WlEvent → Bool
  | .present _ => false
  | .release _ => false
  | _ => true

/-! ## The X11 backend (`src/unix/x11.rs`) -/

/-- The X11 `SurfaceImpl`: a single `Buffer` (its byte length and whether it
is mutably borrowed by a `lock_image` view) plus the published `ImageInfo`. -/
structure X11State where
  locked : Bool
  bufSize : Nat
  imageInfo : ImageInfo
deriving DecidableEq, Repr

/-- `SurfaceImpl::new` (X11): a 1-byte buffer and the default `ImageInfo`. -/
def x11New : X11State :=
  { locked := false, bufSize := 1, imageInfo := ImageInfo.default }

/-- `SurfaceImpl::supported_formats` (X11). -/
def x11SupportedFormats : List Format := [Format.argb8888, Format.xrgb8888]

/-- `SurfaceImpl::num_images` (X11): always `1`. -/
def x11NumImages (_s : X11State) : Nat := 1

/-- `SurfaceImpl::update_surface` (X11), in source order: extent assertions;
checked stride `extent[0] * 4` rounded up by `scanline_align`; the `i32`
stride bound (`_bytes_per_line`); checked size `stride * extent[1]`; then
`image.borrow_mut()` (fails if locked), the buffer resize to `size`, and the
`image_info` store — whose `stride` field is written as `extent[0] * 4`, not
the aligned `stride` used for the buffer size. -/
def x11UpdateSurface (al : Align) (s : X11State) (extent : Nat × Nat) (format : Format) :
    Except PanicMsg X11State :=
  if extent.1 = 0 ∨ extent.2 = 0 then .error .extentZero
  else if ¬ (extent.1 ≤ I32MAX ∧ extent.2 ≤ I32MAX) then .error .extentTooLarge
  else if USIZE ≤ extent.1 * 4 then .error .overflow
  else
    match al.align_up (extent.1 * 4) with
    | none => .error .overflow
    | some stride =>
      if ¬ stride ≤ I32MAX then .error .overflow
      else if USIZE ≤ stride * extent.2 then .error .overflow
      else if s.locked then .error .imageLocked
      else .ok { locked := false, bufSize := stride * extent.2,
                 imageInfo := { extent := extent, stride := extent.1 * 4, format := format } }

/-- `SurfaceImpl::poll_next_image` (X11): always `Some(0)`. -/
def x11PollNextImage (_s : X11State) : Option Nat := some 0

/-- `SurfaceImpl::lock_image` (X11): `assert_eq!(i, 0)`, then a mutable
borrow of the single buffer. -/
def x11LockImage (s : X11State) (i : Nat) : Except PanicMsg X11State :=
  if i ≠ 0 then .error .indexOutOfBounds
  else if s.locked then .error .imageLocked
  else .ok { s with locked := true }

/-- `SurfaceImpl::present_image` (X11): `assert_eq!(i, 0)`, `try_borrow`
(fails while locked), then a synchronous `XPutImage`; no state changes. -/
def x11PresentImage (s : X11State) (i : Nat) : Except PanicMsg X11State :=
  if i ≠ 0 then .error .indexOutOfBounds
  else if s.locked then .error .imageLocked
  else .ok s

/-! ## The CGL (macOS) backend (`src/cgl.rs`) -/

/-- The CGL `SurfaceImpl`: a single `Buffer` plus the published
`ImageInfo`. -/
structure CglState where
  locked : Bool
  bufSize : Nat
  imageInfo : ImageInfo
deriving DecidableEq, Repr

/-- `SurfaceImpl::new` (CGL): a 1-byte buffer and the default `ImageInfo`;
`config.image_count` is never read. -/
def cglNew (_cfg : Config) : CglState :=
  { locked := false, bufSize := 1, imageInfo := ImageInfo.default }

/-- `SurfaceImpl::supported_formats` (CGL). -/
def cglSupportedFormats : List Format := [Format.argb8888, Format.xrgb8888]

/-- `SurfaceImpl::num_images` (CGL): always `1`. -/
def cglNumImages (_s : CglState) : Nat := 1

/-- `SurfaceImpl::update_surface` (CGL), in source order: extent assertions;
checked stride and size (no `i32` stride bound here); then
`image.borrow_mut()` (fails if locked), the GL texture update, the buffer
resize, and the `image_info` store with the aligned `stride`. -/
def cglUpdateSurface (al : Align) (s : CglState) (extent : Nat × Nat) (format : Format) :
    Except PanicMsg CglState :=
  if extent.1 = 0 ∨ extent.2 = 0 then .error .extentZero
  else if ¬ (extent.1 ≤ I32MAX ∧ extent.2 ≤ I32MAX) then .error .extentTooLarge
  else if USIZE ≤ extent.1 * 4 then .error .overflow
  else
    match al.align_up (extent.1 * 4) with
    | none => .error .overflow
    | some stride =>
      if USIZE ≤ stride * extent.2 then .error .overflow
      else if s.locked then .error .imageLocked
      else .ok { locked := false, bufSize := stride * extent.2,
                 imageInfo := { extent := extent, stride := stride, format := format } }

/-- `SurfaceImpl::poll_next_image` (CGL): always `Some(0)` (`present_image`
blocks instead). -/
def cglPollNextImage (_s : CglState) : Option Nat := some 0

/-- `SurfaceImpl::lock_image` (CGL). -/
def cglLockImage (s : CglState) (i : Nat) : Except PanicMsg CglState :=
  if i ≠ 0 then .error .indexOutOfBounds
  else if s.locked then .error .imageLocked
  else .ok { s with locked := true }

/-- `SurfaceImpl::present_image` (CGL): `assert_eq!(i, 0)`, `try_borrow`
(fails while locked), then a synchronous GL upload and `flushBuffer`; no
state changes. -/
def cglPresentImage (s : CglState) (i : Nat) : Except PanicMsg CglState :=
  if i ≠ 0 then .error .indexOutOfBounds
  else if s.locked then .error .imageLocked
  else .ok s

/-! ## The Windows backend (`src/windows.rs`) -/

/-- The Windows `SurfaceImpl`: a single boxed byte image plus the published
`ImageInfo`. -/
structure WinState where
  locked : Bool
  imageLen : Nat
  imageInfo : ImageInfo
deriving DecidableEq, Repr

/-- `SurfaceImpl::new` (Windows): an empty image and the default
`ImageInfo`; the config is never read. -/
def winNew : WinState :=
  { locked := false, imageLen := 0, imageInfo := ImageInfo.default }

/-- `SurfaceImpl::num_images` (Windows): always `1`. -/
def winNumImages (_s : WinState) : Nat := 1

/-- `SurfaceImpl::wait_next_image` (Windows): always `Some(0)`. -/
def winWaitNextImage (_s : WinState) : Option Nat := some 0

/-- `SurfaceImpl::present_image` (Windows): `assert_eq!(i, 0)`, `try_borrow`
(fails while locked), the `Argb8888` assertion, then a synchronous
`StretchDIBits`; no state changes. -/
def winPresentImage (s : WinState) (i : Nat) : Except PanicMsg WinState :=
  if i ≠ 0 then .error .indexOutOfBounds
  else if s.locked then .error .imageLocked
  else .ok s

/-! ## The `SharedConnection` teardown protocol (spec §4.5) -/

/-- Modelled from the spec: the repository sources under `src/` contain no
`SharedConnection` component; §4.5 of the specification describes a
reference-counted connection with a background worker thread, a process-wide
registry, a control channel for close requests, and a destructor that blocks
until the worker acknowledges. This state records, for one connection: the
strong-reference count, registry membership, whether the worker thread is
still running, whether the close request has been sent, and whether the
last-reference destructor has returned. -/
structure ConnSys where
  refCount : Nat
  inRegistry : Bool
  workerRunning : Bool
  closeSent : Bool
  dropReturned : Bool
deriving DecidableEq, Repr

/-- Modelled from the spec: a freshly published `Ready` connection with `n`
live references, registered, its worker thread running. -/
def connInit (n : Nat) : ConnSys :=
  { refCount := n, inRegistry := true, workerRunning := true,
    closeSent := false, dropReturned := false }

/-- Modelled from the spec: the interleaved atomic steps of the application
threads and the worker thread during the connection's life and teardown. -/
inductive ConnEvent where
  /-- another surface reuses the connection (registry lock held,
  reference count still positive, teardown not begun) -/
  | cloneRef
  /-- a non-last reference is dropped -/
  | dropRef
  /-- the last reference is dropped: after re-checking the count under the
  registry lock, the close request is sent over the control channel -/
  | dropLastSendClose
  /-- the worker thread receives the close request, tears the connection
  down, removes it from the registry and exits -/
  | workerAckClose
  /-- the blocked destructor observes the worker's exit (synchronous join)
  and returns -/
  | dropLastReturn
deriving DecidableEq, Repr

/-- Modelled from the spec: one atomic step of the teardown protocol;
steps whose guard fails cannot occur. -/
def connStep (ev : ConnEvent) (s : ConnSys) : Option ConnSys :=
  match ev with
  | .cloneRef =>
    if 1 ≤ s.refCount ∧ ¬ s.closeSent
    then some { s with refCount := s.refCount + 1 } else none
  | .dropRef =>
    if 2 ≤ s.refCount then some { s with refCount := s.refCount - 1 } else none
  | .dropLastSendClose =>
    if s.refCount = 1 ∧ ¬ s.closeSent
    then some { s with refCount := 0, closeSent := true } else none
  | .workerAckClose =>
    if s.closeSent ∧ s.workerRunning
    then some { s with workerRunning := false, inRegistry := false } else none
  | .dropLastReturn =>
    if s.closeSent ∧ ¬ s.workerRunning
    then some { s with dropReturned := true } else none

/-- Modelled from the spec: configurations reachable from a `Ready`
connection with `n` references. -/
inductive ConnReachable (n : Nat) : ConnSys → Prop
  | init : ConnReachable n (connInit n)
  | step {s s' : ConnSys} (ev : ConnEvent) :
      ConnReachable n s → connStep ev s = some s' → ConnReachable n s'

end Swsurface

namespace Swsurface

/-! ## Theorems: arithmetic theory of `align_up` -/

example : Align.new 64 = some align64 := by decide
example : Align.new 0 = none := by decide
example : Align.new 3 = none := by decide
example : align64.align_up 40 = some 64 := by decide
example : align64.align_up 0 = some 0 := by decide
example : align64.align_up 64 = some 64 := by decide
example : (Align.new 4).bind (fun a => a.align_up (USIZE - 2)) = none := by decide
example : (Align.new 4).bind (fun a => a.align_up (USIZE - 4)) = some (USIZE - 4) := by
  decide

/-- Masking with `2 ^ n - 2 ^ k` (ones in bit positions `k … n-1`) clears the
low `k` bits of a value below `2 ^ n`. This is the content of the
`x & !self.0` step of `Align::align_up`. -/
theorem land_high_mask {k n y : Nat} (hk : k ≤ n) (hy : y < 2 ^ n) :
    y &&& (2 ^ n - 2 ^ k) = y - y % 2 ^ k := by
  have hpow : 2 ^ k * 2 ^ (n - k) = 2 ^ n := by
    rw [← pow_add]
    congr 1
    omega
  have hone : 1 ≤ 2 ^ (n - k) := Nat.one_le_two_pow
  have hmask : 2 ^ n - 2 ^ k = 2 ^ k * (2 ^ (n - k) - 1) := by
    have hdist : 2 ^ k * (2 ^ (n - k) - 1) + 2 ^ k = 2 ^ k * 2 ^ (n - k) := by
      rw [← Nat.mul_succ]
      congr 1
      omega
    omega
  have hrhs : y - y % 2 ^ k = 2 ^ k * (y / 2 ^ k) := by
    have := Nat.div_add_mod y (2 ^ k)
    omega
  rw [hmask, hrhs]
  apply Nat.eq_of_testBit_eq
  intro i
  rw [Nat.testBit_and, Nat.testBit_mul_pow_two, Nat.testBit_mul_pow_two,
    Nat.testBit_two_pow_sub_one]
  have hdiv : y / 2 ^ k = y >>> k := (Nat.shiftRight_eq_div_pow y k).symm
  by_cases hik : k ≤ i
  · have hge : i ≥ k := hik
    have hki : k + (i - k) = i := by omega
    rw [hdiv, Nat.testBit_shiftRight, hki]
    by_cases hin : i < n
    · have : i - k < n - k := by omega
      simp [hge, this]
    · have hyi : y.testBit i = false := by
        apply Nat.testBit_lt_two_pow
        calc y < 2 ^ n := hy
          _ ≤ 2 ^ i := Nat.pow_le_pow_right (by omega) (by omega)
      have : ¬ (i - k < n - k) := by omega
      simp [hyi, this]
  · simp [hik]

/-- Unfolding of `Align.align_up` for an alignment `2 ^ k` with `k < 64`:
in the success branch the result is `(x + 2 ^ k - 1)` with its low `k` bits
cleared. -/
theorem align_up_pow2 {k : Nat} (hk : k < 64) (x : Nat) :
    Align.align_up ⟨2 ^ k - 1⟩ x =
      if x + (2 ^ k - 1) < USIZE
      then some ((x + (2 ^ k - 1)) - (x + (2 ^ k - 1)) % 2 ^ k)
      else none := by
  unfold Align.align_up
  by_cases h : x + (2 ^ k - 1) < USIZE
  · have h1 : 1 ≤ 2 ^ k := Nat.one_le_two_pow
    have hk64 : 2 ^ k ≤ 2 ^ 64 := Nat.pow_le_pow_right (by omega) (by omega)
    have hmask : USIZE - 1 - (2 ^ k - 1) = 2 ^ 64 - 2 ^ k := by
      unfold USIZE
      omega
    simp only [h, if_true]
    rw [hmask, land_high_mask (Nat.le_of_lt hk) h]
  · simp [h]

/-- `Align.new` succeeds on every 64-bit power of two, producing the mask
`2 ^ k - 1`. -/
theorem align_new_pow2 {k : Nat} (hk : k < 64) :
    Align.new (2 ^ k) = some ⟨2 ^ k - 1⟩ := by
  unfold Align.new
  have hpos : 0 < 2 ^ k := Nat.pos_pow_of_pos k (by omega)
  have hmem : isPowerOfTwo (2 ^ k) = true := by
    unfold isPowerOfTwo
    rw [List.any_eq_true]
    exact ⟨k, List.mem_range.mpr hk, by simp⟩
  simp [hpos, hmem]

/-- C5: for every representable power-of-two alignment `a = 2 ^ k` and every
address-space-sized `x`, `Align::new(a).align_up(x)` either returns `Some r`
with `r` the smallest multiple of `a` that is at least `x` (and `r` is
representable), or returns `None`, in which case no representable multiple of
`a` is at least `x`; overflow is detected, never wrapped. -/
theorem c5_align_up_smallest_multiple (k x : Nat) (hk : k < 64) (hx : x < USIZE) :
    ∃ al, Align.new (2 ^ k) = some al ∧
      ((∃ r, al.align_up x = some r ∧ x ≤ r ∧ 2 ^ k ∣ r ∧ r < USIZE ∧
          ∀ m, 2 ^ k ∣ m → x ≤ m → r ≤ m) ∨
        (al.align_up x = none ∧ ∀ m, m < USIZE → 2 ^ k ∣ m → m < x)) := by
  refine ⟨⟨2 ^ k - 1⟩, align_new_pow2 hk, ?_⟩
  rw [align_up_pow2 hk]
  have ha : 1 ≤ 2 ^ k := Nat.one_le_two_pow
  by_cases h : x + (2 ^ k - 1) < USIZE
  · left
    have hmod : (x + (2 ^ k - 1)) % 2 ^ k < 2 ^ k := Nat.mod_lt _ (by omega)
    have hdm := Nat.div_add_mod (x + (2 ^ k - 1)) (2 ^ k)
    refine ⟨(x + (2 ^ k - 1)) - (x + (2 ^ k - 1)) % 2 ^ k, by simp [h], by omega,
      ⟨(x + (2 ^ k - 1)) / 2 ^ k, by omega⟩, by omega, ?_⟩
    intro m hdvd hxm
    obtain ⟨t, rfl⟩ := hdvd
    have h1 : x + (2 ^ k - 1) ≤ 2 ^ k * t + (2 ^ k - 1) := by omega
    have h2 : (x + (2 ^ k - 1)) / 2 ^ k ≤ (2 ^ k * t + (2 ^ k - 1)) / 2 ^ k :=
      Nat.div_le_div_right h1
    have h3 : (2 ^ k * t + (2 ^ k - 1)) / 2 ^ k = t + (2 ^ k - 1) / 2 ^ k :=
      Nat.mul_add_div (by omega) t (2 ^ k - 1)
    have h4 : (2 ^ k - 1) / 2 ^ k = 0 := Nat.div_eq_of_lt (by omega)
    have h5 : (x + (2 ^ k - 1)) / 2 ^ k ≤ t := by omega
    have h6 : 2 ^ k * ((x + (2 ^ k - 1)) / 2 ^ k) ≤ 2 ^ k * t :=
      Nat.mul_le_mul_left _ h5
    omega
  · right
    refine ⟨by simp [h], ?_⟩
    intro m hm hdvd
    by_contra hcon
    have hxm : x ≤ m := by omega
    obtain ⟨t, rfl⟩ := hdvd
    have hpow : 2 ^ k * 2 ^ (64 - k) = 2 ^ 64 := by
      rw [← pow_add]
      congr 1
      omega
    have hm' : 2 ^ k * t < 2 ^ k * 2 ^ (64 - k) := by
      unfold USIZE at hm
      omega
    have ht : t < 2 ^ (64 - k) := Nat.lt_of_mul_lt_mul_left hm'
    have ht1 : t ≤ 2 ^ (64 - k) - 1 := by omega
    have h6 : 2 ^ k * t ≤ 2 ^ k * (2 ^ (64 - k) - 1) := Nat.mul_le_mul_left _ ht1
    have hdist : 2 ^ k * (2 ^ (64 - k) - 1) + 2 ^ k = 2 ^ k * 2 ^ (64 - k) := by
      rw [← Nat.mul_succ]
      congr 1
      have : 1 ≤ 2 ^ (64 - k) := Nat.one_le_two_pow
      omega
    unfold USIZE at h
    omega

/-- Witness for C5 at the concrete input `a = 2 ^ 6 = 64`, `x = 10`. -/
theorem c5_witness :
    ∃ al, Align.new (2 ^ 6) = some al ∧
      ((∃ r, al.align_up 10 = some r ∧ 10 ≤ r ∧ 2 ^ 6 ∣ r ∧ r < USIZE ∧
          ∀ m, 2 ^ 6 ∣ m → 10 ≤ m → r ≤ m) ∨
        (al.align_up 10 = none ∧ ∀ m, m < USIZE → 2 ^ 6 ∣ m → m < 10)) :=
  c5_align_up_smallest_multiple 6 10 (by decide) (by decide)

end Swsurface

namespace Swsurface

instance {ε α : Type _} [DecidableEq ε] [DecidableEq α] : DecidableEq (Except ε α) :=
  fun x y =>
    match x, y with
    | .ok a, .ok b =>
      if h : a = b then isTrue (congrArg _ h)
      else isFalse (fun hh => h (Except.ok.inj hh))
    | .error e, .error f =>
      if h : e = f then isTrue (congrArg _ h)
      else isFalse (fun hh => h (Except.error.inj hh))
    | .ok _, .error _ => isFalse (fun hh => Except.noConfusion hh)
    | .error _, .ok _ => isFalse (fun hh => Except.noConfusion hh)

/-! ## Theorems: stride publication (C1) -/

/-- C1 fails on the X11 backend: with scanline alignment 64, after
`update_surface([10, 10], Argb8888)` the X11 backend publishes
`image_info().stride = 40` (`extent[0] * 4`), not 64, even though the backing
buffer is sized with the aligned stride (`bufSize = 64 * 10 = 640`) computed
a few lines earlier; the Wayland backend publishes the aligned stride 64 for
the same input, as the claim states. -/
theorem c1_x11_publishes_unaligned_stride :
    Align.new 64 = some align64 ∧
    (x11UpdateSurface align64 x11New (10, 10) Format.argb8888).toOption.map
      (fun s => (s.imageInfo.stride, s.bufSize)) = some (40, 640) ∧
    ¬ (40 % 64 = 0) ∧
    (wlUpdateSurface align64 (wlNew 2) (10, 10) Format.argb8888).toOption.map
      (fun s => s.imageInfo.stride) = some 64 := by decide

/-! ## Theorems: slot-state basics (C2 counterexample) -/

/-- C2 as stated is false: in the initial state of a 2-slot Wayland surface —
trivially reachable, before any `update_surface` — `poll_next_image` returns
`Some 0` although slot 0 has no backing storage yet (`mem = None`). -/
theorem c2_poll_returns_uninitialized_slot :
    (wlPollNextImage (wlNew 2)).1 = some 0 ∧
    ((wlNew 2).images[0]?).map (fun im => im.memInit) = some false := by decide

/-! ## Theorems: format validation (C3) -/

/-- C3 fails on the code: the Wayland backend advertises only `Argb8888`, yet
its `update_surface` performs no format validation, so requesting `Xrgb8888`
succeeds and installs that format, contradicting the documented behaviour
(`src/lib.rs`: "Panics if `format` is not in `supported_formats()`"). -/
theorem c3_update_surface_skips_format_check :
    Format.xrgb8888 ∉ wlSupportedFormats ∧
    (wlUpdateSurface align64 (wlNew 2) (1, 1) Format.xrgb8888).toOption.map
      (fun s => s.imageInfo.format) = some Format.xrgb8888 := by decide

/-! ## Theorems: image count (C4 counterexample) -/

/-- C4 as stated is false: with the default configuration (`image_count = 2`)
the CGL, X11 and Windows backends all report `num_images() = 1`, ignoring the
configured count; only the Wayland backend honours it. -/
theorem c4_single_image_backends_ignore_image_count :
    Config.default.image_count = 2 ∧
    cglNumImages (cglNew Config.default) = 1 ∧
    x11NumImages x11New = 1 ∧
    winNumImages winNew = 1 ∧
    cglNumImages (cglNew Config.default) ≠ Config.default.image_count := by decide

end Swsurface

namespace Swsurface

/-! ## Helper lemmas about the embedded operations -/

theorem toOption_ok {ε α : Type _} {e : Except ε α} {a : α}
    (h : e.toOption = some a) : e = .ok a := by
  cases e
  · simp [Except.toOption] at h
  · simp [Except.toOption] at h
    simp [h]

theorem position_eq_some {α : Type _} {p : α → Bool} {l : List α} {i : Nat}
    (h : position p l = some i) : ∃ a, l[i]? = some a ∧ p a = true := by
  induction l generalizing i with
  | nil => simp [position] at h
  | cons a as ih =>
    unfold position at h
    by_cases hp : p a
    · simp [hp] at h
      subst h
      exact ⟨a, by simp, hp⟩
    · simp [hp, Option.map_eq_some'] at h
      obtain ⟨j, hj, rfl⟩ := h
      simpa using ih hj

theorem position_map {α : Type _} (p : α → Bool) (l : List α) :
    position p l = position (fun b => b) (l.map p) := by
  induction l with
  | nil => rfl
  | cons a as ih => by_cases hp : p a <;> simp [position, hp, ih]

theorem map_set_of_eq {α β : Type _} {f : α → β} {l : List α} {i : Nat} {a b : α}
    (hget : l[i]? = some a) (hfb : f b = f a) :
    (l.set i b).map f = l.map f := by
  induction l generalizing i with
  | nil => simp at hget
  | cons x xs ih =>
    cases i with
    | zero =>
      simp at hget
      subst hget
      simp [List.set, hfb]
    | succ j =>
      simp at hget
      simp [List.set, ih hget]

theorem wlUpdateSurface_ok {al : Align} {s : WlState} {e : Nat × Nat} {f : Format}
    {t : WlState} (h : wlUpdateSurface al s e f = .ok t) :
    t.images = s.images.map (fun im => { im with memInit := true }) ∧
    t.enableReadyCb = s.enableReadyCb ∧
    s.images.any (fun im => im.locked) = false ∧
    ∃ stride, al.align_up (e.1 * 4) = some stride ∧
      t.imageInfo = { extent := e, stride := stride, format := f } := by
  unfold wlUpdateSurface at h
  split at h
  · simp at h
  split at h
  · simp at h
  rename_i hlock
  split at h
  · simp at h
  split at h
  · simp at h
  split at h
  · simp at h
  rename_i stride hstride
  split at h
  · simp at h
  split at h
  · simp at h
  injection h with h
  subst h
  refine ⟨rfl, rfl, ?_, stride, hstride, rfl⟩
  simpa using hlock

theorem wlLockImage_ok {s : WlState} {i : Nat} {t : WlState}
    (h : wlLockImage s i = .ok t) :
    ∃ im, s.images[i]? = some im ∧ im.presenting = false ∧ im.locked = false ∧
      im.memInit = true ∧
      t.images = s.images.set i { im with locked := true } ∧
      t.enableReadyCb = s.enableReadyCb ∧ t.imageInfo = s.imageInfo := by
  unfold wlLockImage at h
  split at h
  · simp at h
  rename_i im hget
  split at h
  · simp at h
  rename_i hpres
  split at h
  · simp at h
  rename_i hlocked
  split at h
  · simp at h
  rename_i hmem
  injection h with h
  subst h
  exact ⟨im, hget, by simpa using hpres, by simpa using hlocked, by simpa using hmem,
    rfl, rfl, rfl⟩

theorem wlPresentImage_ok {s : WlState} {i : Nat} {t : WlState}
    (h : wlPresentImage s i = .ok t) :
    ∃ im, s.images[i]? = some im ∧ im.presenting = false ∧ im.locked = false ∧
      im.memInit = true ∧
      t.images = s.images.set i { im with hasBuffer := true, presenting := true } ∧
      t.enableReadyCb = s.enableReadyCb ∧ t.imageInfo = s.imageInfo := by
  unfold wlPresentImage at h
  split at h
  · simp at h
  rename_i im hget
  split at h
  · simp at h
  rename_i hpres
  split at h
  · simp at h
  rename_i hlocked
  split at h
  · simp at h
  rename_i hmem
  injection h with h
  subst h
  exact ⟨im, hget, by simpa using hpres, by simpa using hlocked, by simpa using hmem,
    rfl, rfl, rfl⟩

theorem wlOnRelease_images (s : WlState) (i : Nat) :
    (wlOnRelease s i).1.images =
      match s.images[i]? with
      | none => s.images
      | some im => s.images.set i { im with presenting := false } := by
  unfold wlOnRelease
  cases hg : s.images[i]? with
  | none => simp only [hg]; split <;> rfl
  | some im => simp only [hg]; split <;> rfl

theorem wlOnRelease_snd (s : WlState) (i : Nat) :
    (wlOnRelease s i).2 = s.enableReadyCb := by
  unfold wlOnRelease
  cases hg : s.images[i]? <;> by_cases he : s.enableReadyCb = true <;> simp_all

theorem wlOnRelease_fst_flag (s : WlState) (i : Nat) :
    (wlOnRelease s i).1.enableReadyCb = false := by
  unfold wlOnRelease
  cases hg : s.images[i]? <;> by_cases he : s.enableReadyCb = true <;> simp_all

theorem wlPollNextImage_fst (s : WlState) :
    (wlPollNextImage s).1 = position (fun im => im.presenting == false) s.images := by
  unfold wlPollNextImage
  cases h : position (fun im => im.presenting == false) s.images <;> simp [h]

theorem wlPollNextImage_images (s : WlState) :
    (wlPollNextImage s).2.images = s.images := by
  unfold wlPollNextImage
  cases h : position (fun im => im.presenting == false) s.images <;> simp [h]

theorem wlPollNextImage_some_state {s : WlState} {i : Nat}
    (h : (wlPollNextImage s).1 = some i) : (wlPollNextImage s).2 = s := by
  unfold wlPollNextImage at *
  cases hp : position (fun im => im.presenting == false) s.images <;> simp_all

theorem wlPollNextImage_none_flag {s : WlState}
    (h : (wlPollNextImage s).1 = none) :
    (wlPollNextImage s).2.enableReadyCb = true := by
  unfold wlPollNextImage at *
  cases hp : position (fun im => im.presenting == false) s.images <;> simp_all

end Swsurface

namespace Swsurface

/-- The master invariant of the Wayland slot machine: the slot count is the
one fixed at construction, and no slot is ever simultaneously locked and
presenting. -/
theorem wl_reachable_inv {al : Align} {n : Nat} {s : WlState}
    (h : WlReachable al n s) :
    s.images.length = n ∧
    ∀ im ∈ s.images, (im.locked && im.presenting) = false := by
  induction h with
  | init =>
    refine ⟨by simp [wlNew], ?_⟩
    intro im hm
    simp only [wlNew, List.mem_replicate] at hm
    rw [hm.2]
    rfl
  | @step s s' ev hr hex ih =>
    cases ev with
    | update e f =>
      simp only [wlExec] at hex
      have hok := toOption_ok hex
      obtain ⟨him, -, -, -⟩ := wlUpdateSurface_ok hok
      refine ⟨by rw [him, List.length_map]; exact ih.1, ?_⟩
      intro im hm
      rw [him, List.mem_map] at hm
      obtain ⟨im0, h0, rfl⟩ := hm
      exact ih.2 im0 h0
    | poll =>
      simp only [wlExec] at hex
      injection hex with hex
      subst hex
      refine ⟨?_, ?_⟩
      · rw [wlPollNextImage_images]
        exact ih.1
      · intro im hm
        rw [wlPollNextImage_images] at hm
        exact ih.2 im hm
    | lock i =>
      simp only [wlExec] at hex
      have hok := toOption_ok hex
      obtain ⟨im, hget, hpres, -, -, him, -, -⟩ := wlLockImage_ok hok
      refine ⟨by rw [him, List.length_set]; exact ih.1, ?_⟩
      intro x hx
      rw [him] at hx
      rcases List.mem_or_eq_of_mem_set hx with hx | rfl
      · exact ih.2 x hx
      · simp [hpres]
    | unlock i =>
      simp only [wlExec] at hex
      cases hg : s.images[i]? with
      | none => rw [hg] at hex; simp at hex
      | some im =>
        rw [hg] at hex
        by_cases hl : im.locked = true
        · simp only [hl, if_true] at hex
          injection hex with hex
          subst hex
          have him : (wlUnlockImage s i).images =
              s.images.set i { im with locked := false } := by
            unfold wlUnlockImage
            rw [hg]
          refine ⟨by rw [him, List.length_set]; exact ih.1, ?_⟩
          intro x hx
          rw [him] at hx
          rcases List.mem_or_eq_of_mem_set hx with hx | rfl
          · exact ih.2 x hx
          · rfl
        · simp [hl] at hex
    | present i =>
      simp only [wlExec] at hex
      have hok := toOption_ok hex
      obtain ⟨im, hget, -, hlocked, -, him, -, -⟩ := wlPresentImage_ok hok
      refine ⟨by rw [him, List.length_set]; exact ih.1, ?_⟩
      intro x hx
      rw [him] at hx
      rcases List.mem_or_eq_of_mem_set hx with hx | rfl
      · exact ih.2 x hx
      · simp [hlocked]
    | release i =>
      simp only [wlExec] at hex
      cases hg : s.images[i]? with
      | none => rw [hg] at hex; simp at hex
      | some im =>
        rw [hg] at hex
        by_cases hp : im.presenting = true
        · simp only [hp, if_true] at hex
          injection hex with hex
          subst hex
          have him := wlOnRelease_images s i
          rw [hg] at him
          refine ⟨by rw [him, List.length_set]; exact ih.1, ?_⟩
          intro x hx
          rw [him] at hx
          rcases List.mem_or_eq_of_mem_set hx with hx | rfl
          · exact ih.2 x hx
          · simp
        · simp [hp] at hex

end Swsurface

namespace Swsurface

/-- C2 (amended): in every reachable state of a Wayland surface no slot is
simultaneously locked and presenting, and a slot without backing storage
(`mem = None`) can never be successfully locked or presented — `lock_image`
and `present_image` only succeed on an initialised, non-presenting slot.
(`poll_next_image` may still return the index of an uninitialised slot before
the first `update_surface`; see the counterexample.) -/
theorem c2_no_slot_locked_and_presenting (al : Align) (n : Nat) (s : WlState)
    (h : WlReachable al n s) :
    (∀ im ∈ s.images, (im.locked && im.presenting) = false) ∧
    (∀ i t, wlLockImage s i = .ok t →
      ∃ im, s.images[i]? = some im ∧ im.memInit = true ∧ im.presenting = false) ∧
    (∀ i t, wlPresentImage s i = .ok t →
      ∃ im, s.images[i]? = some im ∧ im.memInit = true ∧ im.presenting = false) := by
  refine ⟨(wl_reachable_inv h).2, ?_, ?_⟩
  · intro i t ht
    obtain ⟨im, hget, hpres, -, hmem, -, -, -⟩ := wlLockImage_ok ht
    exact ⟨im, hget, hmem, hpres⟩
  · intro i t ht
    obtain ⟨im, hget, hpres, -, hmem, -, -, -⟩ := wlPresentImage_ok ht
    exact ⟨im, hget, hmem, hpres⟩

/-- Witness for the amended C2 at the initial state of a 2-slot surface. -/
theorem c2_no_slot_locked_and_presenting_witness :
    (∀ im ∈ (wlNew 2).images, (im.locked && im.presenting) = false) ∧
    (∀ i t, wlLockImage (wlNew 2) i = .ok t →
      ∃ im, (wlNew 2).images[i]? = some im ∧ im.memInit = true ∧
        im.presenting = false) ∧
    (∀ i t, wlPresentImage (wlNew 2) i = .ok t →
      ∃ im, (wlNew 2).images[i]? = some im ∧ im.memInit = true ∧
        im.presenting = false) :=
  c2_no_slot_locked_and_presenting align64 2 (wlNew 2) WlReachable.init

/-- C4 (amended): the Wayland backend's `num_images` equals the image count
fixed at construction, in every reachable state; the X11, CGL and Windows
backends report `1` regardless of the configured `image_count`. -/
theorem c4_image_count_fixed_at_construction (al : Align) (n : Nat) (s : WlState)
    (h : WlReachable al n s) :
    wlNumImages s = n ∧
    (∀ t : X11State, x11NumImages t = 1) ∧
    (∀ t : CglState, cglNumImages t = 1) ∧
    (∀ t : WinState, winNumImages t = 1) :=
  ⟨(wl_reachable_inv h).1, fun _ => rfl, fun _ => rfl, fun _ => rfl⟩

/-- Witness for the amended C4 at the initial state of a 2-slot surface. -/
theorem c4_image_count_fixed_at_construction_witness :
    wlNumImages (wlNew 2) = 2 ∧
    (∀ t : X11State, x11NumImages t = 1) ∧
    (∀ t : CglState, cglNumImages t = 1) ∧
    (∀ t : WinState, winNumImages t = 1) :=
  c4_image_count_fixed_at_construction align64 2 (wlNew 2) WlReachable.init

/-- C6: calling `update_surface` with a valid extent while any slot is locked
fails with the "some images are locked" panic on the Wayland backend (and
therefore cannot produce a new state: in this embedding a state is replaced
only by an `.ok` result, so the surface state, its `image_info` and every
slot are untouched); on the CGL backend, under the same conditions and with
the arithmetic checks passing, the call fails with the `RefCell` borrow
panic before any mutation. -/
theorem c6_update_surface_fails_while_locked (al : Align) (s : WlState)
    (e : Nat × Nat) (f : Format) (h1 : e.1 ≠ 0) (h2 : e.2 ≠ 0)
    (hl : s.images.any (fun im => im.locked) = true) :
    wlUpdateSurface al s e f = .error .someImagesAreLocked ∧
    (∀ t : WlState, wlUpdateSurface al s e f ≠ .ok t) ∧
    (∀ (t : CglState) (e' : Nat × Nat) (f' : Format) (stride : Nat),
      t.locked = true → e'.1 ≠ 0 → e'.2 ≠ 0 → e'.1 ≤ I32MAX → e'.2 ≤ I32MAX →
      al.align_up (e'.1 * 4) = some stride → stride * e'.2 < USIZE →
      cglUpdateSurface al t e' f' = .error .imageLocked ∧
      ∀ u : CglState, cglUpdateSurface al t e' f' ≠ .ok u) := by
  have hwl : wlUpdateSurface al s e f = .error .someImagesAreLocked := by
    unfold wlUpdateSurface
    rw [if_neg (by simp [h1, h2]), if_pos hl]
  refine ⟨hwl, ?_, ?_⟩
  · intro t ht
    rw [hwl] at ht
    simp at ht
  · intro t e' f' stride ht h1' h2' h3' h4' hst hsz
    have hmul : ¬ USIZE ≤ e'.1 * 4 := by
      have hb : I32MAX * 4 < USIZE := by decide
      have : e'.1 * 4 ≤ I32MAX * 4 := Nat.mul_le_mul_right 4 h3'
      omega
    have hcgl : cglUpdateSurface al t e' f' = .error .imageLocked := by
      unfold cglUpdateSurface
      rw [if_neg (by simp [h1', h2']), if_neg (not_not_intro ⟨h3', h4'⟩),
        if_neg hmul, hst]
      simp [ht, Nat.not_le.mpr hsz]
    refine ⟨hcgl, ?_⟩
    intro u hu
    rw [hcgl] at hu
    simp at hu

/-- Witness for C6: a 1-slot surface whose slot is locked, extent `(1, 1)`. -/
theorem c6_update_surface_fails_while_locked_witness :
    wlUpdateSurface align64
        ⟨[⟨true, false, true, false⟩], false, ImageInfo.default⟩ (1, 1)
        Format.argb8888 = .error .someImagesAreLocked ∧
    (∀ t : WlState, wlUpdateSurface align64
        ⟨[⟨true, false, true, false⟩], false, ImageInfo.default⟩ (1, 1)
        Format.argb8888 ≠ .ok t) ∧
    (∀ (t : CglState) (e' : Nat × Nat) (f' : Format) (stride : Nat),
      t.locked = true → e'.1 ≠ 0 → e'.2 ≠ 0 → e'.1 ≤ I32MAX → e'.2 ≤ I32MAX →
      align64.align_up (e'.1 * 4) = some stride → stride * e'.2 < USIZE →
      cglUpdateSurface align64 t e' f' = .error .imageLocked ∧
      ∀ u : CglState, cglUpdateSurface align64 t e' f' ≠ .ok u) :=
  c6_update_surface_fails_while_locked align64
    ⟨[⟨true, false, true, false⟩], false, ImageInfo.default⟩ (1, 1)
    Format.argb8888 (by decide) (by decide) (by decide)

/-- Delivering release events can fire the ready callback at most once per
arming of the `enable_ready_cb` latch: the first firing clears the latch and
no release event ever sets it. -/
theorem wlRunReleases_le (s : WlState) (is : List Nat) :
    (wlRunReleases s is).2 ≤ if s.enableReadyCb then 1 else 0 := by
  induction is generalizing s with
  | nil => simp [wlRunReleases]
  | cons i is ih =>
    have hsnd := wlOnRelease_snd s i
    have hflag := wlOnRelease_fst_flag s i
    have hrest0 : (wlRunReleases (wlOnRelease s i).1 is).2 = 0 := by
      have hr := ih ((wlOnRelease s i).1)
      rw [hflag] at hr
      simpa using hr
    simp only [wlRunReleases, hsnd]
    cases he : s.enableReadyCb <;> simp [he, hrest0]

/-- C7: after an arming call of `poll_next_image` (one that returns `None`
and sets the latch), any number of buffer-release completion events invokes
the ready callback at most once, until the latch is re-armed. -/
theorem c7_ready_cb_fires_at_most_once (s : WlState)
    (h : (wlPollNextImage s).1 = none) (is : List Nat) :
    (wlRunReleases (wlPollNextImage s).2 is).2 ≤ 1 := by
  have hle := wlRunReleases_le ((wlPollNextImage s).2) is
  rw [wlPollNextImage_none_flag h] at hle
  simpa using hle

/-- Witness for C7: a surface whose single slot is presenting; the poll
returns `None` and arms the latch, then three release events fire the
callback at most once. -/
theorem c7_ready_cb_fires_at_most_once_witness :
    (wlRunReleases
      (wlPollNextImage ⟨[⟨true, true, false, true⟩], false, ImageInfo.default⟩).2
      [0, 0, 0]).2 ≤ 1 :=
  c7_ready_cb_fires_at_most_once
    ⟨[⟨true, true, false, true⟩], false, ImageInfo.default⟩ (by decide) [0, 0, 0]

end Swsurface

namespace Swsurface

/-- A presenting slot stays presenting across any successful event other than
its own buffer-release completion. -/
theorem wlExec_keeps_presenting {al : Align} {ev : WlEvent} {s s' : WlState}
    {i : Nat} {im : WlImage} (hex : wlExec al ev s = some s')
    (hget : s.images[i]? = some im) (hpres : im.presenting = true)
    (hne : ev ≠ WlEvent.release i) :
    ∃ im', s'.images[i]? = some im' ∧ im'.presenting = true := by
  cases ev with
  | update e f =>
    simp only [wlExec] at hex
    obtain ⟨him, -, -, -⟩ := wlUpdateSurface_ok (toOption_ok hex)
    refine ⟨{ im with memInit := true }, ?_, hpres⟩
    rw [him, List.getElem?_map, hget]
    rfl
  | poll =>
    simp only [wlExec] at hex
    injection hex with hex
    subst hex
    exact ⟨im, by rw [wlPollNextImage_images]; exact hget, hpres⟩
  | lock j =>
    simp only [wlExec] at hex
    obtain ⟨imj, hgetj, hpresj, -, -, him, -, -⟩ := wlLockImage_ok (toOption_ok hex)
    by_cases hji : j = i
    · subst hji
      rw [hget] at hgetj
      injection hgetj with hgetj
      rw [← hgetj, hpres] at hpresj
      exact Bool.noConfusion hpresj
    · refine ⟨im, ?_, hpres⟩
      rw [him, List.getElem?_set_ne hji]
      exact hget
  | unlock j =>
    simp only [wlExec] at hex
    cases hg : s.images[j]? with
    | none => rw [hg] at hex; simp at hex
    | some imj =>
      rw [hg] at hex
      by_cases hl : imj.locked = true
      · simp only [hl, if_true] at hex
        injection hex with hex
        subst hex
        have him : (wlUnlockImage s j).images =
            s.images.set j { imj with locked := false } := by
          unfold wlUnlockImage
          rw [hg]
        by_cases hji : j = i
        · subst hji
          rw [hget] at hg
          injection hg with hg
          have hlen : j < s.images.length := (List.getElem?_eq_some_iff.mp hget).1
          refine ⟨{ imj with locked := false }, ?_, by rw [← hg]; exact hpres⟩
          rw [him]
          exact List.getElem?_set_self hlen
        · refine ⟨im, ?_, hpres⟩
          rw [him, List.getElem?_set_ne hji]
          exact hget
      · simp [hl] at hex
  | present j =>
    simp only [wlExec] at hex
    obtain ⟨imj, hgetj, hpresj, -, -, him, -, -⟩ := wlPresentImage_ok (toOption_ok hex)
    by_cases hji : j = i
    · subst hji
      rw [hget] at hgetj
      injection hgetj with hgetj
      rw [← hgetj, hpres] at hpresj
      exact Bool.noConfusion hpresj
    · refine ⟨im, ?_, hpres⟩
      rw [him, List.getElem?_set_ne hji]
      exact hget
  | release j =>
    have hji : j ≠ i := fun hh => hne (by rw [hh])
    simp only [wlExec] at hex
    cases hg : s.images[j]? with
    | none => rw [hg] at hex; simp at hex
    | some imj =>
      rw [hg] at hex
      by_cases hp : imj.presenting = true
      · simp only [hp, if_true] at hex
        injection hex with hex
        subst hex
        have him := wlOnRelease_images s j
        rw [hg] at him
        refine ⟨im, ?_, hpres⟩
        rw [him, List.getElem?_set_ne hji]
        exact hget
      · simp [hp] at hex

/-- A presenting slot stays presenting across any successful run of events
that contains no release for it. -/
theorem wlRun_keeps_presenting {al : Align} {i : Nat} {evs : List WlEvent} :
    ∀ {s s'' : WlState}, WlEvent.release i ∉ evs → wlRun al s evs = some s'' →
    (∃ im, s.images[i]? = some im ∧ im.presenting = true) →
    ∃ im, s''.images[i]? = some im ∧ im.presenting = true := by
  induction evs with
  | nil =>
    intro s s'' _ hrun h
    unfold wlRun at hrun
    injection hrun with hrun
    rw [← hrun]
    exact h
  | cons ev evs ih =>
    intro s s'' hno hrun h
    unfold wlRun at hrun
    cases hex : wlExec al ev s with
    | none => rw [hex] at hrun; simp at hrun
    | some s1 =>
      rw [hex] at hrun
      simp only [] at hrun
      obtain ⟨im, hget, hpres⟩ := h
      have hne : ev ≠ WlEvent.release i := by
        intro hh
        exact hno (by rw [hh]; exact List.mem_cons_self _ _)
      have h1 := wlExec_keeps_presenting hex hget hpres hne
      exact ih (fun hmem => hno (List.mem_cons_of_mem _ hmem)) hrun h1

/-- C8: after a successful `present_image(i)` on the Wayland backend, no
successful run of events avoiding slot `i`'s buffer-release completion can
make `poll_next_image` return `i` again; on the synchronous backends (X11,
CGL, Windows) a successful present leaves the state unchanged and the single
slot `0` is immediately available again. -/
theorem c8_presented_slot_unavailable_until_release (al : Align) (s : WlState)
    (i : Nat) (s' : WlState) (hp : wlPresentImage s i = .ok s')
    (evs : List WlEvent) (hno : WlEvent.release i ∉ evs)
    (s'' : WlState) (hrun : wlRun al s' evs = some s'') :
    (wlPollNextImage s'').1 ≠ some i ∧
    (∀ (t : X11State) (j : Nat) (t' : X11State),
      x11PresentImage t j = .ok t' → t' = t ∧ x11PollNextImage t' = some 0) ∧
    (∀ (t : CglState) (j : Nat) (t' : CglState),
      cglPresentImage t j = .ok t' → t' = t ∧ cglPollNextImage t' = some 0) ∧
    (∀ (t : WinState) (j : Nat) (t' : WinState),
      winPresentImage t j = .ok t' → t' = t ∧ winWaitNextImage t' = some 0) := by
  refine ⟨?_, ?_, ?_, ?_⟩
  · obtain ⟨im, hget, -, -, -, him, -, -⟩ := wlPresentImage_ok hp
    have hlen : i < s.images.length := (List.getElem?_eq_some_iff.mp hget).1
    have hstart : ∃ im', s'.images[i]? = some im' ∧ im'.presenting = true := by
      refine ⟨{ im with hasBuffer := true, presenting := true }, ?_, rfl⟩
      rw [him]
      exact List.getElem?_set_self hlen
    obtain ⟨im'', hget'', hpres''⟩ := wlRun_keeps_presenting hno hrun hstart
    intro hpoll
    rw [wlPollNextImage_fst] at hpoll
    obtain ⟨a, ha, hpa⟩ := position_eq_some hpoll
    rw [hget''] at ha
    injection ha with ha
    rw [← ha, hpres''] at hpa
    simp at hpa
  · intro t j t' hpt
    unfold x11PresentImage at hpt
    split at hpt
    · simp at hpt
    split at hpt
    · simp at hpt
    injection hpt with hpt
    subst hpt
    exact ⟨rfl, rfl⟩
  · intro t j t' hpt
    unfold cglPresentImage at hpt
    split at hpt
    · simp at hpt
    split at hpt
    · simp at hpt
    injection hpt with hpt
    subst hpt
    exact ⟨rfl, rfl⟩
  · intro t j t' hpt
    unfold winPresentImage at hpt
    split at hpt
    · simp at hpt
    split at hpt
    · simp at hpt
    injection hpt with hpt
    subst hpt
    exact ⟨rfl, rfl⟩

/-- Witness for C8: a 2-slot initialised surface; present slot 0, then one
poll; slot 0 is not offered again. -/
theorem c8_presented_slot_unavailable_until_release_witness :
    (wlPollNextImage
        ⟨[⟨true, true, false, true⟩, ⟨true, false, false, false⟩], false,
          ImageInfo.default⟩).1 ≠ some 0 ∧
    (∀ (t : X11State) (j : Nat) (t' : X11State),
      x11PresentImage t j = .ok t' → t' = t ∧ x11PollNextImage t' = some 0) ∧
    (∀ (t : CglState) (j : Nat) (t' : CglState),
      cglPresentImage t j = .ok t' → t' = t ∧ cglPollNextImage t' = some 0) ∧
    (∀ (t : WinState) (j : Nat) (t' : WinState),
      winPresentImage t j = .ok t' → t' = t ∧ winWaitNextImage t' = some 0) :=
  c8_presented_slot_unavailable_until_release align64
    ⟨[⟨true, false, false, false⟩, ⟨true, false, false, false⟩], false,
      ImageInfo.default⟩
    0
    ⟨[⟨true, true, false, true⟩, ⟨true, false, false, false⟩], false,
      ImageInfo.default⟩
    (by decide) [WlEvent.poll] (by decide)
    ⟨[⟨true, true, false, true⟩, ⟨true, false, false, false⟩], false,
      ImageInfo.default⟩
    (by decide)

end Swsurface

namespace Swsurface

/-- Any successful non-presenting, non-release event leaves the vector of
`presenting` flags unchanged. -/
theorem wlExec_presenting_map {al : Align} {ev : WlEvent} {s s' : WlState}
    (hex : wlExec al ev s = some s') (hev : nonCompleting ev = true) :
    s'.images.map (fun im => im.presenting) =
      s.images.map (fun im => im.presenting) := by
  cases ev with
  | update e f =>
    simp only [wlExec] at hex
    obtain ⟨him, -, -, -⟩ := wlUpdateSurface_ok (toOption_ok hex)
    rw [him, List.map_map]
    rfl
  | poll =>
    simp only [wlExec] at hex
    injection hex with hex
    subst hex
    rw [wlPollNextImage_images]
  | lock j =>
    simp only [wlExec] at hex
    obtain ⟨imj, hgetj, -, -, -, him, -, -⟩ := wlLockImage_ok (toOption_ok hex)
    rw [him]
    exact map_set_of_eq hgetj rfl
  | unlock j =>
    simp only [wlExec] at hex
    cases hg : s.images[j]? with
    | none => rw [hg] at hex; simp at hex
    | some imj =>
      rw [hg] at hex
      by_cases hl : imj.locked = true
      · simp only [hl, if_true] at hex
        injection hex with hex
        subst hex
        have him : (wlUnlockImage s j).images =
            s.images.set j { imj with locked := false } := by
          unfold wlUnlockImage
          rw [hg]
        rw [him]
        exact map_set_of_eq hg rfl
      · simp [hl] at hex
  | present j => simp [nonCompleting] at hev
  | release j => simp [nonCompleting] at hev

/-- The `presenting` vector is unchanged by any successful run of
non-presenting, non-release events. -/
theorem wlRun_presenting_map {al : Align} {evs : List WlEvent} :
    ∀ {s s'' : WlState}, (∀ e ∈ evs, nonCompleting e = true) →
    wlRun al s evs = some s'' →
    s''.images.map (fun im => im.presenting) =
      s.images.map (fun im => im.presenting) := by
  induction evs with
  | nil =>
    intro s s'' _ hrun
    unfold wlRun at hrun
    injection hrun with hrun
    rw [hrun]
  | cons ev evs ih =>
    intro s s'' hev hrun
    unfold wlRun at hrun
    cases hex : wlExec al ev s with
    | none => rw [hex] at hrun; simp at hrun
    | some s1 =>
      rw [hex] at hrun
      simp only [] at hrun
      have h1 := wlExec_presenting_map hex (hev ev (List.mem_cons_self _ _))
      have h2 := ih (fun e he => hev e (List.mem_cons_of_mem _ he)) hrun
      rw [h2, h1]

/-- C9: once `poll_next_image` returns `Some i`, every later
`poll_next_image` still returns `Some i` as long as no `present_image` call
and no buffer-release completion intervenes (repeated polls, lock/unlock and
even reconfiguration do not remove the image from the available set). -/
theorem c9_poll_stable_without_present_or_release (al : Align) (s : WlState)
    (i : Nat) (hpoll : (wlPollNextImage s).1 = some i)
    (evs : List WlEvent) (hev : ∀ e ∈ evs, nonCompleting e = true)
    (s' : WlState) (hrun : wlRun al s evs = some s') :
    (wlPollNextImage s').1 = some i := by
  have key : ∀ l : List WlImage,
      position (fun im => im.presenting == false) l =
        position (fun b => b)
          ((l.map (fun im => im.presenting)).map (fun b => b == false)) := by
    intro l
    rw [position_map]
    congr 1
    rw [List.map_map]
    rfl
  rw [wlPollNextImage_fst, key] at hpoll ⊢
  rw [wlRun_presenting_map hev hrun]
  exact hpoll

/-- Witness for C9: a fresh 2-slot surface; the first poll returns slot 0 and
a trace of two further polls, an update, a lock and an unlock still leaves
`poll_next_image` returning slot 0. -/
theorem c9_poll_stable_without_present_or_release_witness :
    (wlPollNextImage
        ⟨[⟨true, false, false, false⟩, ⟨true, false, false, false⟩], false,
          { extent := (1, 1), stride := 64, format := Format.argb8888 }⟩).1 =
      some 0 :=
  c9_poll_stable_without_present_or_release align64 (wlNew 2) 0 (by decide)
    [WlEvent.poll, WlEvent.update (1, 1) Format.argb8888, WlEvent.lock 0,
      WlEvent.unlock 0, WlEvent.poll]
    (by decide)
    ⟨[⟨true, false, false, false⟩, ⟨true, false, false, false⟩], false,
      { extent := (1, 1), stride := 64, format := Format.argb8888 }⟩
    (by decide)

/-- Modelled from the spec: the teardown invariant — once the worker thread
has exited the registry entry is gone, and the destructor can only have
returned after the worker exited. -/
theorem conn_inv {n : Nat} {s : ConnSys} (h : ConnReachable n s) :
    (s.workerRunning = false → s.inRegistry = false) ∧
    (s.dropReturned = true → s.workerRunning = false) := by
  induction h with
  | init => simp [connInit]
  | @step s s' ev hr hex ih =>
    cases ev with
    | cloneRef =>
      simp only [connStep] at hex
      split at hex
      · injection hex with hex
        subst hex
        exact ih
      · simp at hex
    | dropRef =>
      simp only [connStep] at hex
      split at hex
      · injection hex with hex
        subst hex
        exact ih
      · simp at hex
    | dropLastSendClose =>
      simp only [connStep] at hex
      split at hex
      · injection hex with hex
        subst hex
        exact ih
      · simp at hex
    | workerAckClose =>
      simp only [connStep] at hex
      split at hex
      · injection hex with hex
        subst hex
        exact ⟨fun _ => rfl, fun _ => rfl⟩
      · simp at hex
    | dropLastReturn =>
      simp only [connStep] at hex
      split at hex
      · rename_i hg
        injection hex with hex
        subst hex
        refine ⟨fun hw => ih.1 hw, fun _ => ?_⟩
        simpa using hg.2
      · simp at hex

/-- C10: in the `SharedConnection` model of spec §4.5, whenever the
last-reference destructor has returned, the worker thread has exited and the
registry no longer contains the connection — the close request is sent on the
last drop and the destructor's return is guarded by the worker's exit
(synchronous join, no orphaned threads). -/
theorem c10_drop_joins_worker_and_deregisters (n : Nat) (s : ConnSys)
    (h : ConnReachable n s) (hd : s.dropReturned = true) :
    s.workerRunning = false ∧ s.inRegistry = false := by
  have hi := conn_inv h
  have hw := hi.2 hd
  exact ⟨hw, hi.1 hw⟩

/-- Witness for C10: the three-step teardown trace of a 1-reference
connection (send close, worker acks and exits, destructor returns). -/
theorem c10_drop_joins_worker_and_deregisters_witness :
    ConnSys.workerRunning
        { refCount := 0, inRegistry := false, workerRunning := false,
          closeSent := true, dropReturned := true } = false ∧
    ConnSys.inRegistry
        { refCount := 0, inRegistry := false, workerRunning := false,
          closeSent := true, dropReturned := true } = false :=
  c10_drop_joins_worker_and_deregisters 1
    { refCount := 0, inRegistry := false, workerRunning := false,
      closeSent := true, dropReturned := true }
    (by
      have h0 : ConnReachable 1 (connInit 1) := ConnReachable.init
      have h1 : ConnReachable 1
          { refCount := 0, inRegistry := true, workerRunning := true,
            closeSent := true, dropReturned := false } :=
        ConnReachable.step ConnEvent.dropLastSendClose h0 (by decide)
      have h2 : ConnReachable 1
          { refCount := 0, inRegistry := false, workerRunning := false,
            closeSent := true, dropReturned := false } :=
        ConnReachable.step ConnEvent.workerAckClose h1 (by decide)
      exact ConnReachable.step ConnEvent.dropLastReturn h2 (by decide))
    (by decide)

end Swsurface
